import Mathlib

/-!
Shallow embedding of `src/shared/port-provider.js` (class `PortProvider`).

The broker runs in the host frame: it validates inbound `postMessage` events
against a fixed policy table, deduplicates requests per sender window,
allocates `MessageChannel` endpoint pairs (one eagerly created singleton for
the `sidebar-host` kind, fresh pairs for all other kinds) and routes the two
ports: port1 straight back to the requesting window, port2 either relayed
through the singleton channel (responder `sidebar`) or handed to local
consumers through a `frameConnected` event (responder `host`).

Windows are identified by `Nat`; an event source that is not a window is
`none`.  `MessageChannel` pairs are identified by allocation number: the
singleton created in the constructor is channel `0`, on-demand channels get
`1, 2, ...` from a counter.  A `Port` is a channel id plus a side flag
(`first = true` for `port1`).
-/

/-- The decoded fields of a structured message: `frame1`, `frame2`, `type`
(the shape of `Message` in `port-util`). -/
structure MessageData where
  frame1 : String
  frame2 : String
  type : String
deriving DecidableEq

/-- An entry of `this._allowedMessages`: a `Message` together with the
`allowedOrigin` that may send it. -/
structure PolicyEntry where
  allowedOrigin : String
  frame1 : String
  frame2 : String
  type : String
deriving DecidableEq

/-- One endpoint of a `MessageChannel`: the channel's allocation id and
which of the two linked ports it is (`first = true` for `port1`). -/
structure Port where
  channel : Nat
  first : Bool
deriving DecidableEq

/-- `port1` of the channel with allocation id `ch`. -/
def port1 (ch : Nat) : Port := ⟨ch, true⟩

/-- `port2` of the channel with allocation id `ch`. -/
def port2 (ch : Nat) : Port := ⟨ch, false⟩

/-- An inbound `message` event as seen by `handleRequest`: its decoded
`data` (`none` when the data is not a well-formed message object), its
`origin`, and its `source` (`none` when the source is not a window). -/
structure InEvent where
  data : Option MessageData
  origin : String
  source : Option Nat
deriving DecidableEq

/-- The observable actions `handleRequest` performs, in program order. -/
inductive Effect where
  /-- `source.postMessage(message, origin, [port])`: a message posted
  straight back to the requesting window, transferring one port. -/
  | postToSource (window : Nat) (message : MessageData) (targetOrigin : String) (transfer : Port)
  /-- `via.postMessage(message, [port])`: a message posted on a port the
  broker already owns, transferring one port. -/
  | postToPort (via : Port) (message : MessageData) (transfer : Port)
  /-- `this._emitter.emit('frameConnected', source, port)`: the local
  notification raised when the host itself is the responder. -/
  | emitFrameConnected (source : String) (port : Port)
deriving DecidableEq

/-- Modelled from the spec: `isMessageEqual` from the `port-util` module
(not under `src/`).  The spec says a request "must structurally equal a
PolicyEntry's (requesterKind, responderKind) with `type=\"request\"`";
malformed data (not a message-shaped object) is `none` and equals nothing. -/
def isMessageEqual (data : Option MessageData) (message : MessageData) : Bool :=
  match data with
  | some d => d == message
  | none => false

/-- Modelled from the spec: `isSourceWindow` from the `port-util` module
(not under `src/`).  The spec says to reject "any event whose sender is not
a recognized window-like context reference"; a non-window sender is `none`. -/
def isSourceWindow (source : Option Nat) : Bool :=
  source.isSome

/-- `PortProvider._messageMatches({allowedMessage, allowedOrigin, data, origin})`. -/
def messageMatches (allowedMessage : MessageData) (allowedOrigin : String)
    (data : Option MessageData) (origin : String) : Bool :=
  if allowedOrigin ≠ "*" ∧ origin ≠ allowedOrigin then false
  else isMessageEqual data allowedMessage

/-- The broker state held by a `PortProvider` instance: the configured
apps origin, the `_sentChannels` map (association list keyed by window id),
the allocation id of the eagerly created `_sidebarHostChannel`, and the
allocation counter for on-demand `new MessageChannel()` calls. -/
structure PortProvider where
  hypothesisAppsOrigin : String
  sentChannels : List (Nat × List String)
  sidebarHostChannel : Nat
  nextChannelId : Nat
deriving DecidableEq

/-- The constructor: `_sentChannels` starts empty and the `sidebar-host`
channel is created immediately (allocation id `0`); on-demand channels will
be numbered from `1`. -/
def PortProvider.init (hypothesisAppsOrigin : String) : PortProvider :=
  { hypothesisAppsOrigin := hypothesisAppsOrigin
    sentChannels := []
    sidebarHostChannel := 0
    nextChannelId := 1 }

/-- `this._allowedMessages`, as built in the constructor. -/
def PortProvider.allowedMessages (p : PortProvider) : List PolicyEntry :=
  [ { allowedOrigin := "*", frame1 := "guest", frame2 := "host", type := "request" },
    { allowedOrigin := "*", frame1 := "guest", frame2 := "sidebar", type := "request" },
    { allowedOrigin := p.hypothesisAppsOrigin, frame1 := "sidebar", frame2 := "host", type := "request" },
    { allowedOrigin := p.hypothesisAppsOrigin, frame1 := "notebook", frame2 := "sidebar", type := "request" } ]

/-- The channel name `` `${frame1}-${frame2}` `` derived from a policy entry. -/
def channelOf (entry : PolicyEntry) : String :=
  entry.frame1 ++ "-" ++ entry.frame2

/-- The channel name `` `${frame1}-${frame2}` `` carried by a message. -/
def channelOfMsg (m : MessageData) : String :=
  m.frame1 ++ "-" ++ m.frame2

/-- The `find` callback of `handleRequest`: destructure an entry into
`allowedOrigin` and the remaining `allowedMessage` and call `_messageMatches`. -/
def matchesEvent (entry : PolicyEntry) (ev : InEvent) : Bool :=
  messageMatches ⟨entry.frame1, entry.frame2, entry.type⟩ entry.allowedOrigin ev.data ev.origin

/-- `this._allowedMessages.find(...)` inside `handleRequest`. -/
def PortProvider.matchedEntry (p : PortProvider) (ev : InEvent) : Option PolicyEntry :=
  p.allowedMessages.find? (fun entry => matchesEvent entry ev)

/-- Update of the `_sentChannels` association list: add channel `c` to the
set stored for window `w`, creating the entry when the window is new
(mirrors `get`, then `set` of an empty `Set`, then `add`). -/
def updateAssoc : List (Nat × List String) → Nat → String → List (Nat × List String)
  | [], w, c => [(w, [c])]
  | kv :: rest, w, c =>
      if kv.1 = w then (kv.1, c :: kv.2) :: rest else kv :: updateAssoc rest w c

/-- Lookup in the `_sentChannels` association list (`[]` when the map has
no entry for the window). -/
def lookupChannels (m : List (Nat × List String)) (w : Nat) : List String :=
  match m.find? (fun kv => kv.1 = w) with
  | some kv => kv.2
  | none => []

/-- The set of channels recorded in `_sentChannels` for window `w`
(`[]` when the map has no entry for `w`). -/
def PortProvider.sentFor (p : PortProvider) (w : Nat) : List String :=
  lookupChannels p.sentChannels w

/-- `this._sentChannels.set(...)` / `sentChannels.add(channel)` combined. -/
def PortProvider.recordSent (p : PortProvider) (w : Nat) (c : String) : PortProvider :=
  { p with sentChannels := updateAssoc p.sentChannels w c }

/-- The sends performed after a grant, in program order: port1 of the
chosen channel goes back to the source with the offer message; then port2
is either relayed over `_sidebarHostChannel.port2` (responder `sidebar`) or
announced locally via `frameConnected` (responder `host`). -/
def offerEffects (p : PortProvider) (source : Nat) (origin : String)
    (entry : PolicyEntry) (ch : Nat) : List Effect :=
  let message : MessageData := ⟨entry.frame1, entry.frame2, "offer"⟩
  Effect.postToSource source message origin (port1 ch) ::
    (if entry.frame2 = "sidebar" then
      [Effect.postToPort (port2 p.sidebarHostChannel) message (port2 ch)]
    else if entry.frame2 = "host" then
      [Effect.emitFrameConnected entry.frame1 (port2 ch)]
    else [])

/-- The decision part of `handleRequest` (the closure inside `listen`)
before any send executes: `none` when the event is ignored (non-window
source, no policy match, or duplicate request — the three early `return`s),
otherwise the next state (dedup recorded, channel allocated) and the sends
still to be executed, in program order. -/
def PortProvider.handleRequestCore (p : PortProvider) (ev : InEvent) :
    Option (PortProvider × List Effect) :=
  match ev.source with
  | none => none
  | some source =>
    match p.matchedEntry ev with
    | none => none
    | some entry =>
      let channel := channelOf entry
      if channel ∈ p.sentFor source then none
      else
        let p1 := p.recordSent source channel
        if channel = "sidebar-host" then
          some (p1, offerEffects p source ev.origin entry p.sidebarHostChannel)
        else
          some ({ p1 with nextChannelId := p.nextChannelId + 1 },
            offerEffects p source ev.origin entry p.nextChannelId)

/-- `handleRequest` as a pure step (all sends succeed): given the current
broker state and one inbound event, the next state and the list of
observable effects, in program order. -/
def PortProvider.handleRequest (p : PortProvider) (ev : InEvent) : PortProvider × List Effect :=
  (p.handleRequestCore ev).getD (p, [])

/-- Sequential processing of a list of inbound events, accumulating the
trace of effects. -/
def runEvents : PortProvider → List InEvent → PortProvider × List Effect
  | p, [] => (p, [])
  | p, ev :: evs =>
    let r := p.handleRequest ev
    let rest := runEvents r.1 evs
    (rest.1, r.2 ++ rest.2)

/-- A report delivered to the external error sink: the raised error and the
description string passed to `captureErrors`. -/
structure SinkReport where
  error : String
  description : String
deriving DecidableEq

/-- Execute a list of effects in order, where `failsAt eff = some msg` means
the platform call for `eff` throws `msg`: the effects actually performed up
to the failure, and the propagating error, if any. -/
def runEffects (failsAt : Effect → Option String) : List Effect → List Effect × Option String
  | [] => ([], none)
  | eff :: rest =>
    match failsAt eff with
    | some msg => ([], some msg)
    | none =>
      let r := runEffects failsAt rest
      (eff :: r.1, r.2)

/-- `handleRequest` with fallible sends: the dedup record and channel
allocation happen before any send (as in the source), so the state update
survives a throwing send; the third component is the uncaught error
propagating out of the bare handler. -/
def PortProvider.handleRequestE (failsAt : Effect → Option String)
    (p : PortProvider) (ev : InEvent) : PortProvider × List Effect × Option String :=
  match p.handleRequestCore ev with
  | none => (p, [], none)
  | some (p1, effs) =>
    let r := runEffects failsAt effs
    (p1, r.1, r.2)

/-- Modelled from the spec: `captureErrors(handleRequest, 'Handling port
request')` from the `frame-error-capture` module (not under `src/`).  The
spec says any exception during handling "is caught, reported to an external
error sink" together with "a short description of the operation that
failed", and does not propagate. -/
def captureErrorsStep (failsAt : Effect → Option String)
    (p : PortProvider) (ev : InEvent) : PortProvider × List Effect × List SinkReport :=
  match p.handleRequestE failsAt ev with
  | (p1, done, some msg) => (p1, done, [⟨msg, "Handling port request"⟩])
  | (p1, done, none) => (p1, done, [])

/-- The listening loop with fallible sends: every event is processed by the
wrapped handler; a failure on one event never prevents later events from
being processed. -/
def runEventsF (failsAt : Effect → Option String) :
    PortProvider → List InEvent → PortProvider × List Effect × List SinkReport
  | p, [] => (p, [], [])
  | p, ev :: evs =>
    let r := captureErrorsStep failsAt p ev
    let rest := runEventsF failsAt r.1 evs
    (rest.1, r.2.1 ++ rest.2.1, r.2.2 ++ rest.2.2)

/-- The channel kinds that appear in the policy table. -/
def validChannels : List String :=
  ["guest-host", "guest-sidebar", "notebook-sidebar", "sidebar-host"]

/-- For a grant effect of an on-demand kind (everything except the
sidebar-host singleton), the allocation id of the freshly created channel
whose port1 is handed to the requester; `none` for every other effect. -/
def freshGrantId : Effect → Option Nat
  | .postToSource _ m _ pt =>
      if channelOfMsg m = "sidebar-host" then none else some pt.channel
  | _ => none

/-- For a grant effect, the pair (requesting window, channel kind) it
grants; `none` for relay and notification effects. -/
def grantKey : Effect → Option (Nat × String)
  | .postToSource w m _ _ => some (w, channelOfMsg m)
  | _ => none

/-- Two effects never grant the same fresh channel id and never grant the
same (window, kind) combination. -/
def DistinctGrants (a b : Effect) : Prop :=
  (∀ i1 i2, freshGrantId a = some i1 → freshGrantId b = some i2 → i1 ≠ i2)
  ∧ (∀ w k, grantKey a = some (w, k) → grantKey b = some (w, k) → False)

/-- All channel names recorded in `_sentChannels` are policy-table kinds. -/
def channelsInv (p : PortProvider) : Prop :=
  ∀ (w : Nat) (cs : List String), (w, cs) ∈ p.sentChannels → ∀ c ∈ cs, c ∈ validChannels

/-- The two kinds of keyed container the platform offers for
`_sentChannels`: a strongly keyed `Map` (entries keep their key alive and
are never reclaimed) or a weakly keyed `WeakMap` (an entry never prevents
its key from being reclaimed). -/
inductive MapKind where
  | strongMap
  | weakMap
deriving DecidableEq

/-- The container the `PortProvider` constructor actually allocates for
`_sentChannels`: `new Map()` (port-provider.js line 80). -/
def sentChannelsMapKind : MapKind := MapKind.strongMap

/-- The container declared by the field's own type annotation,
`@type {WeakMap<Window, Set<Channel>>}` (port-provider.js line 78), which
is what the weak-association claim describes. -/
def sentChannelsDeclaredMapKind : MapKind := MapKind.weakMap

example :
    (PortProvider.init "https://hyp.is").handleRequest
        ⟨some ⟨"guest", "host", "request"⟩, "https://page.example", some 7⟩ =
      ({ hypothesisAppsOrigin := "https://hyp.is"
         sentChannels := [(7, ["guest-host"])]
         sidebarHostChannel := 0
         nextChannelId := 2 },
       [Effect.postToSource 7 ⟨"guest", "host", "offer"⟩ "https://page.example" (port1 1),
        Effect.emitFrameConnected "guest" (port2 1)]) := by
  decide

/-! ### Basic facts about the state operations -/

theorem recordSent_hypothesisAppsOrigin (p : PortProvider) (w : Nat) (c : String) :
    (p.recordSent w c).hypothesisAppsOrigin = p.hypothesisAppsOrigin := rfl

theorem recordSent_sidebarHostChannel (p : PortProvider) (w : Nat) (c : String) :
    (p.recordSent w c).sidebarHostChannel = p.sidebarHostChannel := rfl

theorem recordSent_nextChannelId (p : PortProvider) (w : Nat) (c : String) :
    (p.recordSent w c).nextChannelId = p.nextChannelId := rfl

theorem allowedMessages_congr (p q : PortProvider)
    (h : q.hypothesisAppsOrigin = p.hypothesisAppsOrigin) :
    q.allowedMessages = p.allowedMessages := by
  simp [PortProvider.allowedMessages, h]

theorem matchedEntry_congr (p q : PortProvider)
    (h : q.hypothesisAppsOrigin = p.hypothesisAppsOrigin) (ev : InEvent) :
    q.matchedEntry ev = p.matchedEntry ev := by
  simp [PortProvider.matchedEntry, allowedMessages_congr p q h]

theorem lookupChannels_updateAssoc (w : Nat) (c : String) :
    ∀ (m : List (Nat × List String)) (w' : Nat),
      lookupChannels (updateAssoc m w c) w' =
        if w' = w then c :: lookupChannels m w' else lookupChannels m w' := by
  intro m
  induction m with
  | nil =>
    intro w'
    by_cases h : w' = w
    · subst h; simp [updateAssoc, lookupChannels, List.find?]
    · have h' : ¬w = w' := fun hc => h hc.symm
      simp [updateAssoc, lookupChannels, List.find?, h, h']
  | cons kv rest ih =>
    intro w'
    by_cases hk : kv.1 = w
    · by_cases h : w' = w
      · subst h
        simp [updateAssoc, hk, lookupChannels, List.find?, hk]
      · have hk' : kv.1 ≠ w' := fun hc => h (hc ▸ hk)
        have h' : ¬w = w' := fun hc => h hc.symm
        simp [updateAssoc, hk, lookupChannels, List.find?, hk', h, h']
    · by_cases hkv : kv.1 = w'
      · have h : w' ≠ w := fun hc => hk (hkv.trans hc)
        simp [updateAssoc, hk, lookupChannels, List.find?, hkv, h]
      · by_cases h : w' = w <;>
          simpa [updateAssoc, hk, lookupChannels, List.find?, hkv, h] using ih w'

theorem sentFor_recordSent (p : PortProvider) (w : Nat) (c : String) (w' : Nat) :
    (p.recordSent w c).sentFor w' =
      if w' = w then c :: p.sentFor w' else p.sentFor w' := by
  simp [PortProvider.sentFor, PortProvider.recordSent, lookupChannels_updateAssoc]

theorem sentFor_recordSent_self (p : PortProvider) (w : Nat) (c : String) :
    (p.recordSent w c).sentFor w = c :: p.sentFor w := by
  simp [sentFor_recordSent]

theorem sentFor_recordSent_subset (p : PortProvider) (w : Nat) (c : String) (w' : Nat) :
    p.sentFor w' ⊆ (p.recordSent w c).sentFor w' := by
  rw [sentFor_recordSent]
  by_cases h : w' = w <;> simp [h, List.subset_cons_of_subset]

/-! ### Characterization of one handler step -/

theorem handleRequest_of_core_none (p : PortProvider) (ev : InEvent)
    (h : p.handleRequestCore ev = none) : p.handleRequest ev = (p, []) := by
  simp [PortProvider.handleRequest, h]

theorem handleRequest_of_core_some (p : PortProvider) (ev : InEvent)
    (r : PortProvider × List Effect) (h : p.handleRequestCore ev = some r) :
    p.handleRequest ev = r := by
  simp [PortProvider.handleRequest, h]

theorem handleRequestCore_none_of_source (p : PortProvider) (ev : InEvent)
    (h : ev.source = none) : p.handleRequestCore ev = none := by
  simp [PortProvider.handleRequestCore, h]

theorem handleRequestCore_none_of_no_match (p : PortProvider) (ev : InEvent)
    (h : p.matchedEntry ev = none) : p.handleRequestCore ev = none := by
  unfold PortProvider.handleRequestCore
  cases hs : ev.source <;> simp [h]

theorem handleRequestCore_none_of_dup (p : PortProvider) (ev : InEvent)
    (src : Nat) (entry : PolicyEntry)
    (hs : ev.source = some src) (hm : p.matchedEntry ev = some entry)
    (hdup : channelOf entry ∈ p.sentFor src) : p.handleRequestCore ev = none := by
  simp [PortProvider.handleRequestCore, hs, hm, hdup]

theorem handleRequestCore_grant_singleton (p : PortProvider) (ev : InEvent)
    (src : Nat) (entry : PolicyEntry)
    (hs : ev.source = some src) (hm : p.matchedEntry ev = some entry)
    (hnew : channelOf entry ∉ p.sentFor src) (hch : channelOf entry = "sidebar-host") :
    p.handleRequestCore ev =
      some (p.recordSent src (channelOf entry),
        offerEffects p src ev.origin entry p.sidebarHostChannel) := by
  have hnew' : "sidebar-host" ∉ p.sentFor src := hch ▸ hnew
  simp [PortProvider.handleRequestCore, hs, hm, hnew', hch]

theorem handleRequestCore_grant_fresh (p : PortProvider) (ev : InEvent)
    (src : Nat) (entry : PolicyEntry)
    (hs : ev.source = some src) (hm : p.matchedEntry ev = some entry)
    (hnew : channelOf entry ∉ p.sentFor src) (hch : channelOf entry ≠ "sidebar-host") :
    p.handleRequestCore ev =
      some ({ p.recordSent src (channelOf entry) with nextChannelId := p.nextChannelId + 1 },
        offerEffects p src ev.origin entry p.nextChannelId) := by
  simp [PortProvider.handleRequestCore, hs, hm, hnew, hch]

theorem handleRequestCore_spec (p : PortProvider) (ev : InEvent) :
    p.handleRequestCore ev = none
    ∨ ∃ src entry, ev.source = some src ∧ p.matchedEntry ev = some entry ∧
        channelOf entry ∉ p.sentFor src ∧
        ((channelOf entry = "sidebar-host" ∧
          p.handleRequestCore ev =
            some (p.recordSent src (channelOf entry),
              offerEffects p src ev.origin entry p.sidebarHostChannel))
        ∨ (channelOf entry ≠ "sidebar-host" ∧
          p.handleRequestCore ev =
            some ({ p.recordSent src (channelOf entry) with
                      nextChannelId := p.nextChannelId + 1 },
              offerEffects p src ev.origin entry p.nextChannelId))) := by
  cases hs : ev.source with
  | none => exact Or.inl (handleRequestCore_none_of_source p ev hs)
  | some src =>
    cases hm : p.matchedEntry ev with
    | none => exact Or.inl (handleRequestCore_none_of_no_match p ev hm)
    | some entry =>
      by_cases hdup : channelOf entry ∈ p.sentFor src
      · exact Or.inl (handleRequestCore_none_of_dup p ev src entry hs hm hdup)
      · refine Or.inr ⟨src, entry, rfl, rfl, hdup, ?_⟩
        by_cases hch : channelOf entry = "sidebar-host"
        · exact Or.inl ⟨hch, handleRequestCore_grant_singleton p ev src entry hs hm hdup hch⟩
        · exact Or.inr ⟨hch, handleRequestCore_grant_fresh p ev src entry hs hm hdup hch⟩

theorem handleRequestE_of_core_none (failsAt : Effect → Option String)
    (p : PortProvider) (ev : InEvent) (h : p.handleRequestCore ev = none) :
    p.handleRequestE failsAt ev = (p, [], none) := by
  simp [PortProvider.handleRequestE, h]

theorem handleRequestE_of_core_some (failsAt : Effect → Option String)
    (p : PortProvider) (ev : InEvent) (r : PortProvider × List Effect)
    (h : p.handleRequestCore ev = some r) :
    p.handleRequestE failsAt ev =
      (r.1, (runEffects failsAt r.2).1, (runEffects failsAt r.2).2) := by
  simp [PortProvider.handleRequestE, h]

theorem captureErrorsStep_eq (failsAt : Effect → Option String)
    (p : PortProvider) (ev : InEvent) :
    captureErrorsStep failsAt p ev =
      ((p.handleRequestE failsAt ev).1, (p.handleRequestE failsAt ev).2.1,
        match (p.handleRequestE failsAt ev).2.2 with
        | some msg => [⟨msg, "Handling port request"⟩]
        | none => []) := by
  rcases hr : p.handleRequestE failsAt ev with ⟨p1, done, err⟩
  cases err <;> simp [captureErrorsStep, hr]

/-! ### The matched entry is one of the four policy entries -/

theorem matchedEntry_mem (p : PortProvider) (ev : InEvent) (entry : PolicyEntry)
    (h : p.matchedEntry ev = some entry) :
    entry = ⟨"*", "guest", "host", "request"⟩ ∨
    entry = ⟨"*", "guest", "sidebar", "request"⟩ ∨
    entry = ⟨p.hypothesisAppsOrigin, "sidebar", "host", "request"⟩ ∨
    entry = ⟨p.hypothesisAppsOrigin, "notebook", "sidebar", "request"⟩ := by
  have hmem := List.mem_of_find?_eq_some h
  simpa [PortProvider.allowedMessages] using hmem

theorem matchedEntry_type (p : PortProvider) (ev : InEvent) (entry : PolicyEntry)
    (h : p.matchedEntry ev = some entry) : entry.type = "request" := by
  rcases matchedEntry_mem p ev entry h with h' | h' | h' | h' <;> subst h' <;> rfl

theorem channelOf_guest_host (o : String) :
    channelOf ⟨o, "guest", "host", "request"⟩ = "guest-host" := rfl

theorem channelOf_guest_sidebar (o : String) :
    channelOf ⟨o, "guest", "sidebar", "request"⟩ = "guest-sidebar" := rfl

theorem channelOf_sidebar_host (o : String) :
    channelOf ⟨o, "sidebar", "host", "request"⟩ = "sidebar-host" := rfl

theorem channelOf_notebook_sidebar (o : String) :
    channelOf ⟨o, "notebook", "sidebar", "request"⟩ = "notebook-sidebar" := rfl

theorem matchedEntry_channelOf_valid (p : PortProvider) (ev : InEvent) (entry : PolicyEntry)
    (h : p.matchedEntry ev = some entry) : channelOf entry ∈ validChannels := by
  rcases matchedEntry_mem p ev entry h with h' | h' | h' | h' <;> subst h'
  · decide
  · decide
  · rw [channelOf_sidebar_host]; decide
  · rw [channelOf_notebook_sidebar]; decide

/-! ### The effects of one step -/

theorem mem_offerEffects (p : PortProvider) (src : Nat) (og : String)
    (entry : PolicyEntry) (ch : Nat) (eff : Effect)
    (h : eff ∈ offerEffects p src og entry ch) :
    eff = Effect.postToSource src ⟨entry.frame1, entry.frame2, "offer"⟩ og (port1 ch)
    ∨ (entry.frame2 = "sidebar" ∧
        eff = Effect.postToPort (port2 p.sidebarHostChannel)
          ⟨entry.frame1, entry.frame2, "offer"⟩ (port2 ch))
    ∨ (entry.frame2 = "host" ∧
        eff = Effect.emitFrameConnected entry.frame1 (port2 ch)) := by
  by_cases h2 : entry.frame2 = "sidebar"
  · simp [offerEffects, h2] at h
    rcases h with h | h
    · exact Or.inl (by rw [h, h2])
    · exact Or.inr (Or.inl ⟨h2, by rw [h, h2]⟩)
  · by_cases h3 : entry.frame2 = "host"
    · simp [offerEffects, h2, h3] at h
      rcases h with h | h
      · exact Or.inl (by rw [h, h3])
      · exact Or.inr (Or.inr ⟨h3, by rw [h]⟩)
    · simp [offerEffects, h2, h3] at h
      exact Or.inl (by rw [h])

theorem handleRequest_effects_mem (p : PortProvider) (ev : InEvent) (eff : Effect)
    (h : eff ∈ (p.handleRequest ev).2) :
    ∃ src entry, ev.source = some src ∧ p.matchedEntry ev = some entry ∧
      channelOf entry ∉ p.sentFor src ∧
      ∃ ch, ((channelOf entry = "sidebar-host" ∧ ch = p.sidebarHostChannel) ∨
             (channelOf entry ≠ "sidebar-host" ∧ ch = p.nextChannelId)) ∧
        eff ∈ offerEffects p src ev.origin entry ch := by
  rcases handleRequestCore_spec p ev with hn | ⟨src, entry, hs, hm, hnew, hc⟩
  · rw [handleRequest_of_core_none p ev hn] at h
    simp at h
  · rcases hc with ⟨hch, heq⟩ | ⟨hch, heq⟩
    · rw [handleRequest_of_core_some p ev _ heq] at h
      exact ⟨src, entry, hs, hm, hnew, p.sidebarHostChannel, Or.inl ⟨hch, rfl⟩, h⟩
    · rw [handleRequest_of_core_some p ev _ heq] at h
      exact ⟨src, entry, hs, hm, hnew, p.nextChannelId, Or.inr ⟨hch, rfl⟩, h⟩

/-! ### State evolution over one step -/

theorem handleRequest_hypothesisAppsOrigin (p : PortProvider) (ev : InEvent) :
    (p.handleRequest ev).1.hypothesisAppsOrigin = p.hypothesisAppsOrigin := by
  rcases handleRequestCore_spec p ev with hn | ⟨src, entry, hs, hm, hnew, ⟨_, heq⟩ | ⟨_, heq⟩⟩
  · rw [handleRequest_of_core_none p ev hn]
  · rw [handleRequest_of_core_some p ev _ heq]; rfl
  · rw [handleRequest_of_core_some p ev _ heq]; rfl

theorem handleRequest_sidebarHostChannel (p : PortProvider) (ev : InEvent) :
    (p.handleRequest ev).1.sidebarHostChannel = p.sidebarHostChannel := by
  rcases handleRequestCore_spec p ev with hn | ⟨src, entry, hs, hm, hnew, ⟨_, heq⟩ | ⟨_, heq⟩⟩
  · rw [handleRequest_of_core_none p ev hn]
  · rw [handleRequest_of_core_some p ev _ heq]; rfl
  · rw [handleRequest_of_core_some p ev _ heq]; rfl

theorem handleRequest_nextChannelId_mono (p : PortProvider) (ev : InEvent) :
    p.nextChannelId ≤ (p.handleRequest ev).1.nextChannelId := by
  rcases handleRequestCore_spec p ev with hn | ⟨src, entry, hs, hm, hnew, ⟨_, heq⟩ | ⟨_, heq⟩⟩
  · rw [handleRequest_of_core_none p ev hn]
  · rw [handleRequest_of_core_some p ev _ heq]
    exact Nat.le_of_eq rfl
  · rw [handleRequest_of_core_some p ev _ heq]
    exact Nat.le_succ _

theorem handleRequest_sentFor_subset (p : PortProvider) (ev : InEvent) (w : Nat) :
    p.sentFor w ⊆ (p.handleRequest ev).1.sentFor w := by
  rcases handleRequestCore_spec p ev with hn | ⟨src, entry, hs, hm, hnew, ⟨_, heq⟩ | ⟨_, heq⟩⟩
  · rw [handleRequest_of_core_none p ev hn]
    exact List.Subset.refl _
  · rw [handleRequest_of_core_some p ev _ heq]
    exact sentFor_recordSent_subset p src (channelOf entry) w
  · rw [handleRequest_of_core_some p ev _ heq]
    exact sentFor_recordSent_subset p src (channelOf entry) w

/-! ### State evolution over a run -/

theorem runEvents_nil (p : PortProvider) : runEvents p [] = (p, []) := rfl

theorem runEvents_cons (p : PortProvider) (ev : InEvent) (evs : List InEvent) :
    runEvents p (ev :: evs) =
      ((runEvents (p.handleRequest ev).1 evs).1,
        (p.handleRequest ev).2 ++ (runEvents (p.handleRequest ev).1 evs).2) := rfl

theorem runEvents_sidebarHostChannel :
    ∀ (evs : List InEvent) (p : PortProvider),
      (runEvents p evs).1.sidebarHostChannel = p.sidebarHostChannel := by
  intro evs
  induction evs with
  | nil => intro p; rfl
  | cons ev rest ih =>
    intro p
    rw [runEvents_cons]
    exact (ih (p.handleRequest ev).1).trans (handleRequest_sidebarHostChannel p ev)

theorem runEvents_hypothesisAppsOrigin :
    ∀ (evs : List InEvent) (p : PortProvider),
      (runEvents p evs).1.hypothesisAppsOrigin = p.hypothesisAppsOrigin := by
  intro evs
  induction evs with
  | nil => intro p; rfl
  | cons ev rest ih =>
    intro p
    rw [runEvents_cons]
    exact (ih (p.handleRequest ev).1).trans (handleRequest_hypothesisAppsOrigin p ev)

theorem runEvents_nextChannelId_mono :
    ∀ (evs : List InEvent) (p : PortProvider),
      p.nextChannelId ≤ (runEvents p evs).1.nextChannelId := by
  intro evs
  induction evs with
  | nil => intro p; exact Nat.le_refl _
  | cons ev rest ih =>
    intro p
    rw [runEvents_cons]
    exact Nat.le_trans (handleRequest_nextChannelId_mono p ev) (ih (p.handleRequest ev).1)

theorem runEvents_sentFor_subset :
    ∀ (evs : List InEvent) (p : PortProvider) (w : Nat),
      p.sentFor w ⊆ (runEvents p evs).1.sentFor w := by
  intro evs
  induction evs with
  | nil => intro p w; exact List.Subset.refl _
  | cons ev rest ih =>
    intro p w
    rw [runEvents_cons]
    exact (handleRequest_sentFor_subset p ev w).trans (ih (p.handleRequest ev).1 w)

theorem runEvents_mem_effects :
    ∀ (evs : List InEvent) (p : PortProvider) (eff : Effect),
      eff ∈ (runEvents p evs).2 →
      ∃ (q : PortProvider) (ev : InEvent), eff ∈ (q.handleRequest ev).2 ∧
        q.sidebarHostChannel = p.sidebarHostChannel ∧
        q.hypothesisAppsOrigin = p.hypothesisAppsOrigin ∧
        p.nextChannelId ≤ q.nextChannelId := by
  intro evs
  induction evs with
  | nil => intro p eff h; simp [runEvents_nil] at h
  | cons ev rest ih =>
    intro p eff h
    rw [runEvents_cons] at h
    rcases List.mem_append.mp h with h1 | h2
    · exact ⟨p, ev, h1, rfl, rfl, Nat.le_refl _⟩
    · rcases ih (p.handleRequest ev).1 eff h2 with ⟨q, ev', hq, hsb, horig, hnext⟩
      exact ⟨q, ev', hq,
        hsb.trans (handleRequest_sidebarHostChannel p ev),
        horig.trans (handleRequest_hypothesisAppsOrigin p ev),
        Nat.le_trans (handleRequest_nextChannelId_mono p ev) hnext⟩

/-! ### The matcher, elementwise -/

theorem messageMatches_iff (am : MessageData) (ao : String)
    (data : Option MessageData) (og : String) :
    messageMatches am ao data og = true ↔
      (data = some am ∧ (ao = "*" ∨ og = ao)) := by
  by_cases h1 : ao = "*"
  · subst h1
    cases data with
    | none => simp [messageMatches, isMessageEqual]
    | some d => simp [messageMatches, isMessageEqual]
  · by_cases h2 : og = ao
    · cases data with
      | none => simp [messageMatches, isMessageEqual, h1, h2]
      | some d => simp [messageMatches, isMessageEqual, h1, h2]
    · cases data with
      | none => simp [messageMatches, isMessageEqual, h1, h2]
      | some d => simp [messageMatches, isMessageEqual, h1, h2]

theorem find?_first_index {α : Type} (pred : α → Bool) :
    ∀ (l : List α) (a : α), l.find? pred = some a →
      ∃ i : Nat, l[i]? = some a ∧ pred a = true ∧
        ∀ j : Nat, j < i → ∀ b, l[j]? = some b → pred b = false := by
  intro l
  induction l with
  | nil => intro a h; simp [List.find?] at h
  | cons x xs ih =>
    intro a h
    by_cases hx : pred x = true
    · rw [List.find?_cons_of_pos _ hx] at h
      cases h
      exact ⟨0, by simp, hx, fun j hj => absurd hj (Nat.not_lt_zero j)⟩
    · rw [List.find?_cons_of_neg _ (by simpa using hx)] at h
      rcases ih a h with ⟨i, hget, hpred, hbefore⟩
      refine ⟨i + 1, by simpa using hget, hpred, ?_⟩
      intro j hj b hb
      cases j with
      | zero =>
        simp at hb
        subst hb
        simpa using hx
      | succ j' =>
        exact hbefore j' (Nat.lt_of_succ_lt_succ hj) b (by simpa using hb)

theorem handleRequest_grant_head (p : PortProvider) (ev : InEvent)
    (src : Nat) (entry : PolicyEntry)
    (hs : ev.source = some src) (hm : p.matchedEntry ev = some entry)
    (hnew : channelOf entry ∉ p.sentFor src) :
    (p.handleRequest ev).2.head? =
      some (Effect.postToSource src ⟨entry.frame1, entry.frame2, "offer"⟩ ev.origin
        (port1 (if channelOf entry = "sidebar-host" then p.sidebarHostChannel
                else p.nextChannelId))) := by
  by_cases hch : channelOf entry = "sidebar-host"
  · rw [handleRequest_of_core_some p ev _
      (handleRequestCore_grant_singleton p ev src entry hs hm hnew hch), if_pos hch]
    rfl
  · rw [handleRequest_of_core_some p ev _
      (handleRequestCore_grant_fresh p ev src entry hs hm hnew hch), if_neg hch]
    rfl

/-- C1: for every inbound event and every policy entry, the matcher accepts
iff the data is a message whose `type` is `"request"` and whose
requester/responder kinds equal the entry's, and the entry's allowed origin
is `"*"` or equals the observed origin exactly; the entry used to grant a
channel is the first matching entry in policy-table order. -/
theorem c1_matcher_and_precedence (p : PortProvider) :
    (∀ entry, entry ∈ p.allowedMessages → ∀ (data : Option MessageData) (origin : String),
      (messageMatches ⟨entry.frame1, entry.frame2, entry.type⟩ entry.allowedOrigin data origin
          = true ↔
        ∃ d, data = some d ∧ d.type = "request" ∧ d.frame1 = entry.frame1 ∧
          d.frame2 = entry.frame2 ∧
          (entry.allowedOrigin = "*" ∨ origin = entry.allowedOrigin)))
    ∧ (∀ (ev : InEvent) (entry : PolicyEntry), p.matchedEntry ev = some entry →
        ∃ i : Nat, p.allowedMessages[i]? = some entry ∧ matchesEvent entry ev = true ∧
          ∀ j : Nat, j < i → ∀ e2, p.allowedMessages[j]? = some e2 → matchesEvent e2 ev = false)
    ∧ (∀ (ev : InEvent) (src : Nat) (entry : PolicyEntry),
        ev.source = some src → p.matchedEntry ev = some entry →
        channelOf entry ∉ p.sentFor src →
        (p.handleRequest ev).2.head? =
          some (Effect.postToSource src ⟨entry.frame1, entry.frame2, "offer"⟩ ev.origin
            (port1 (if channelOf entry = "sidebar-host" then p.sidebarHostChannel
                    else p.nextChannelId)))) := by
  refine ⟨?_, ?_, ?_⟩
  · intro entry hmem data origin
    have ht : entry.type = "request" := by
      simp [PortProvider.allowedMessages] at hmem
      rcases hmem with h | h | h | h <;> subst h <;> rfl
    rw [messageMatches_iff]
    constructor
    · rintro ⟨hd, ho⟩
      exact ⟨⟨entry.frame1, entry.frame2, entry.type⟩, hd, ht, rfl, rfl, ho⟩
    · rintro ⟨d, hd, hty, h1, h2, ho⟩
      refine ⟨?_, ho⟩
      rw [hd]
      have : d = ⟨entry.frame1, entry.frame2, entry.type⟩ := by
        cases d
        simp only at h1 h2 hty
        simp [h1, h2, hty, ht]
      rw [this]
  · intro ev entry h
    exact find?_first_index _ p.allowedMessages entry h
  · intro ev src entry hs hm hnew
    exact handleRequest_grant_head p ev src entry hs hm hnew

/-- Witness for C1 at a concrete event: the first policy entry accepts a
well-formed guest-host request from an arbitrary origin. -/
theorem c1_matcher_and_precedence_witness :
    messageMatches ⟨"guest", "host", "request"⟩ "*"
      (some ⟨"guest", "host", "request"⟩) "https://page.example" = true := by
  have h := (c1_matcher_and_precedence (PortProvider.init "https://hyp.is")).1
    ⟨"*", "guest", "host", "request"⟩ (by decide)
    (some ⟨"guest", "host", "request"⟩) "https://page.example"
  exact h.mpr ⟨⟨"guest", "host", "request"⟩, rfl, rfl, rfl, rfl, Or.inl rfl⟩

/-- C5: an event whose sender is not a window, or whose data/origin matches
no policy entry, is a silent no-op: no effect is produced, the state is
unchanged, and nothing is raised or reported to the error sink. -/
theorem c5_silent_rejection (p : PortProvider) (ev : InEvent)
    (h : ev.source = none ∨ ∀ entry ∈ p.allowedMessages, matchesEvent entry ev = false) :
    p.handleRequest ev = (p, []) ∧
    ∀ failsAt : Effect → Option String, captureErrorsStep failsAt p ev = (p, [], []) := by
  have hcore : p.handleRequestCore ev = none := by
    rcases h with h | h
    · exact handleRequestCore_none_of_source p ev h
    · have hm : p.matchedEntry ev = none := by
        apply List.find?_eq_none.mpr
        intro e he
        simp [h e he]
      exact handleRequestCore_none_of_no_match p ev hm
  refine ⟨handleRequest_of_core_none p ev hcore, ?_⟩
  intro failsAt
  rw [captureErrorsStep_eq, handleRequestE_of_core_none failsAt p ev hcore]

/-- Witness for C5: a notebook-sidebar request from an untrusted origin is
ignored with no state change (spec Scenario B). -/
theorem c5_silent_rejection_witness :
    (PortProvider.init "https://hyp.is").handleRequest
        ⟨some ⟨"notebook", "sidebar", "request"⟩, "https://evil.example", some 5⟩ =
      (PortProvider.init "https://hyp.is", []) := by
  exact (c5_silent_rejection (PortProvider.init "https://hyp.is")
    ⟨some ⟨"notebook", "sidebar", "request"⟩, "https://evil.example", some 5⟩
    (Or.inr (by decide))).1

/-- C2: if processing an event produced a grant, reprocessing the identical
event from the same sender is a complete no-op: no message, no allocation,
no notification, and the broker state is unchanged. -/
theorem c2_idempotent (p : PortProvider) (ev : InEvent)
    (h : (p.handleRequest ev).2 ≠ []) :
    (p.handleRequest ev).1.handleRequest ev = ((p.handleRequest ev).1, []) := by
  rcases handleRequestCore_spec p ev with hn | ⟨src, entry, hs, hm, hnew, hgr⟩
  · rw [handleRequest_of_core_none p ev hn] at h
    simp at h
  · rcases hgr with ⟨hch, heq⟩ | ⟨hch, heq⟩
    · have heqH := handleRequest_of_core_some p ev _ heq
      rw [heqH]
      have hm' : (p.recordSent src (channelOf entry)).matchedEntry ev = some entry :=
        (matchedEntry_congr p _ rfl ev).trans hm
      have hdup : channelOf entry ∈ (p.recordSent src (channelOf entry)).sentFor src := by
        rw [sentFor_recordSent_self]
        exact List.mem_cons_self _ _
      exact handleRequest_of_core_none _ ev
        (handleRequestCore_none_of_dup _ ev src entry hs hm' hdup)
    · have heqH := handleRequest_of_core_some p ev _ heq
      rw [heqH]
      have hm' : ({ p.recordSent src (channelOf entry) with
          nextChannelId := p.nextChannelId + 1 }).matchedEntry ev = some entry :=
        (matchedEntry_congr p _ rfl ev).trans hm
      have hdup : channelOf entry ∈ ({ p.recordSent src (channelOf entry) with
          nextChannelId := p.nextChannelId + 1 }).sentFor src := by
        show channelOf entry ∈ (p.recordSent src (channelOf entry)).sentFor src
        rw [sentFor_recordSent_self]
        exact List.mem_cons_self _ _
      exact handleRequest_of_core_none _ ev
        (handleRequestCore_none_of_dup _ ev src entry hs hm' hdup)

/-- Witness for C2: a granted guest-host request, sent twice from window 7,
yields no effect and no state change the second time (spec Scenario C). -/
theorem c2_idempotent_witness :
    ((PortProvider.init "https://hyp.is").handleRequest
        ⟨some ⟨"guest", "host", "request"⟩, "https://page.example", some 7⟩).1.handleRequest
        ⟨some ⟨"guest", "host", "request"⟩, "https://page.example", some 7⟩ =
      (((PortProvider.init "https://hyp.is").handleRequest
        ⟨some ⟨"guest", "host", "request"⟩, "https://page.example", some 7⟩).1, []) := by
  apply c2_idempotent
  decide

/-- C3: the `sidebar-host` endpoint pair exists from construction (it is
allocation `0`, made before the on-demand counter starts at `1`), no run
ever replaces it, every grant of the `sidebar-host` kind hands out exactly
that pre-created channel without consuming the counter, and every grant of
any other kind allocates a brand-new channel on that call (the counter
value, which is then advanced). -/
theorem c3_singleton_vs_fresh (o : String) :
    ((PortProvider.init o).sidebarHostChannel = 0 ∧ (PortProvider.init o).nextChannelId = 1)
    ∧ (∀ events : List InEvent,
        (runEvents (PortProvider.init o) events).1.sidebarHostChannel = 0)
    ∧ (∀ (p : PortProvider) (ev : InEvent) (src : Nat) (entry : PolicyEntry),
        ev.source = some src → p.matchedEntry ev = some entry →
        channelOf entry ∉ p.sentFor src →
        (channelOf entry = "sidebar-host" →
          (p.handleRequest ev).2.head? =
            some (Effect.postToSource src ⟨entry.frame1, entry.frame2, "offer"⟩ ev.origin
              (port1 p.sidebarHostChannel)) ∧
          (p.handleRequest ev).1.nextChannelId = p.nextChannelId)
        ∧ (channelOf entry ≠ "sidebar-host" →
          (p.handleRequest ev).2.head? =
            some (Effect.postToSource src ⟨entry.frame1, entry.frame2, "offer"⟩ ev.origin
              (port1 p.nextChannelId)) ∧
          (p.handleRequest ev).1.nextChannelId = p.nextChannelId + 1)) := by
  refine ⟨⟨rfl, rfl⟩, ?_, ?_⟩
  · intro events
    exact runEvents_sidebarHostChannel events (PortProvider.init o)
  · intro p ev src entry hs hm hnew
    constructor
    · intro hch
      rw [handleRequest_of_core_some p ev _
        (handleRequestCore_grant_singleton p ev src entry hs hm hnew hch)]
      exact ⟨rfl, rfl⟩
    · intro hch
      rw [handleRequest_of_core_some p ev _
        (handleRequestCore_grant_fresh p ev src entry hs hm hnew hch)]
      exact ⟨rfl, rfl⟩

/-- Witness for C3 at a concrete broker: a sidebar-host request from the
trusted origin is served with port1 of the pre-created channel `0` and does
not advance the allocation counter. -/
theorem c3_singleton_vs_fresh_witness :
    ((PortProvider.init "https://hyp.is").handleRequest
        ⟨some ⟨"sidebar", "host", "request"⟩, "https://hyp.is", some 2⟩).2.head? =
      some (Effect.postToSource 2 ⟨"sidebar", "host", "offer"⟩ "https://hyp.is" (port1 0)) ∧
    ((PortProvider.init "https://hyp.is").handleRequest
        ⟨some ⟨"sidebar", "host", "request"⟩, "https://hyp.is", some 2⟩).1.nextChannelId = 1 := by
  have h := ((c3_singleton_vs_fresh "https://hyp.is").2.2
    (PortProvider.init "https://hyp.is")
    ⟨some ⟨"sidebar", "host", "request"⟩, "https://hyp.is", some 2⟩ 2
    ⟨"https://hyp.is", "sidebar", "host", "request"⟩
    rfl (by decide) (by decide)).1 (by decide)
  exact h

/-- C4: a granted request produces exactly these sends, in order: port1 of
the chosen channel goes straight back to the requesting window together
with the offer message, scoped to the observed origin; then, if the
responder kind is `sidebar`, port2 is relayed through port2 of the
pre-existing sidebar-host singleton channel, and if the responder kind is
`host`, port2 is transferred nowhere and a local `frameConnected`
notification carries (requester kind, port2). -/
theorem c4_routing (p : PortProvider) (ev : InEvent) (src : Nat) (entry : PolicyEntry)
    (hs : ev.source = some src) (hm : p.matchedEntry ev = some entry)
    (hnew : channelOf entry ∉ p.sentFor src) :
    (p.handleRequest ev).2 =
      Effect.postToSource src ⟨entry.frame1, entry.frame2, "offer"⟩ ev.origin
        (port1 (if channelOf entry = "sidebar-host" then p.sidebarHostChannel
                else p.nextChannelId)) ::
      (if entry.frame2 = "sidebar" then
        [Effect.postToPort (port2 p.sidebarHostChannel)
          ⟨entry.frame1, entry.frame2, "offer"⟩
          (port2 (if channelOf entry = "sidebar-host" then p.sidebarHostChannel
                  else p.nextChannelId))]
      else if entry.frame2 = "host" then
        [Effect.emitFrameConnected entry.frame1
          (port2 (if channelOf entry = "sidebar-host" then p.sidebarHostChannel
                  else p.nextChannelId))]
      else []) := by
  by_cases hch : channelOf entry = "sidebar-host"
  · rw [handleRequest_of_core_some p ev _
      (handleRequestCore_grant_singleton p ev src entry hs hm hnew hch), if_pos hch]
    rfl
  · rw [handleRequest_of_core_some p ev _
      (handleRequestCore_grant_fresh p ev src entry hs hm hnew hch), if_neg hch]
    rfl

/-- Witness for C4 at a concrete event: a guest-sidebar grant posts port1
of the fresh channel back to the guest window and relays port2 through
port2 of the singleton channel. -/
theorem c4_routing_witness :
    ((PortProvider.init "https://hyp.is").handleRequest
        ⟨some ⟨"guest", "sidebar", "request"⟩, "https://page.example", some 9⟩).2 =
      [Effect.postToSource 9 ⟨"guest", "sidebar", "offer"⟩ "https://page.example" (port1 1),
       Effect.postToPort (port2 0) ⟨"guest", "sidebar", "offer"⟩ (port2 1)] := by
  have h := c4_routing (PortProvider.init "https://hyp.is")
    ⟨some ⟨"guest", "sidebar", "request"⟩, "https://page.example", some 9⟩ 9
    ⟨"*", "guest", "sidebar", "request"⟩ rfl (by decide) (by decide)
  rw [h]
  rfl

/-! ### Only policy-table kinds are ever recorded or granted -/

theorem mem_updateAssoc (w : Nat) (c : String) :
    ∀ (m : List (Nat × List String)) (w' : Nat) (cs' : List String),
      (w', cs') ∈ updateAssoc m w c →
      (w', cs') ∈ m ∨ ∃ cs, cs' = c :: cs ∧ ((w', cs) ∈ m ∨ cs = []) := by
  intro m
  induction m with
  | nil =>
    intro w' cs' h
    simp [updateAssoc] at h
    exact Or.inr ⟨[], by simp [h.2], Or.inr rfl⟩
  | cons kv rest ih =>
    intro w' cs' h
    by_cases hk : kv.1 = w
    · simp [updateAssoc, hk] at h
      rcases h with ⟨h1, h2⟩ | h
      · exact Or.inr ⟨kv.2, h2, Or.inl (by
          have : (w', kv.2) = kv := by
            cases kv
            simp at h1 hk ⊢
            omega
          rw [this]
          exact List.mem_cons_self _ _)⟩
      · exact Or.inl (List.mem_cons_of_mem _ h)
    · simp only [updateAssoc, if_neg hk, List.mem_cons] at h
      rcases h with h | h
      · exact Or.inl (by simp [h])
      · rcases ih w' cs' h with h' | ⟨cs, hcs, h'⟩
        · exact Or.inl (List.mem_cons_of_mem _ h')
        · exact Or.inr ⟨cs, hcs, h'.imp (List.mem_cons_of_mem _) id⟩

theorem handleRequest_channelsInv (p : PortProvider) (ev : InEvent)
    (h : channelsInv p) : channelsInv (p.handleRequest ev).1 := by
  rcases handleRequestCore_spec p ev with hn | ⟨src, entry, hs, hm, hnew, ⟨_, heq⟩ | ⟨_, heq⟩⟩
  · rw [handleRequest_of_core_none p ev hn]
    exact h
  · rw [handleRequest_of_core_some p ev _ heq]
    intro w cs hmem c hc
    rcases mem_updateAssoc src (channelOf entry) p.sentChannels w cs hmem with h' | ⟨cs0, hcs, h'⟩
    · exact h w cs h' c hc
    · subst hcs
      rcases List.mem_cons.mp hc with hc | hc
    

      · subst hc
        exact matchedEntry_channelOf_valid p ev entry hm
      · rcases h' with h' | h'
        · exact h w cs0 h' c hc
        · subst h'
          simp at hc
  · rw [handleRequest_of_core_some p ev _ heq]
    intro w cs hmem c hc
    rcases mem_updateAssoc src (channelOf entry) p.sentChannels w cs hmem with h' | ⟨cs0, hcs, h'⟩
    · exact h w cs h' c hc
    · subst hcs
      rcases List.mem_cons.mp hc with hc | hc
      · subst hc
        exact matchedEntry_channelOf_valid p ev entry hm
      · rcases h' with h' | h'
        · exact h w cs0 h' c hc
        · subst h'
          simp at hc

theorem runEvents_channelsInv :
    ∀ (evs : List InEvent) (p : PortProvider),
      channelsInv p → channelsInv (runEvents p evs).1 := by
  intro evs
  induction evs with
  | nil => intro p h; exact h
  | cons ev rest ih =>
    intro p h
    rw [runEvents_cons]
    exact ih (p.handleRequest ev).1 (handleRequest_channelsInv p ev h)

/-- C9: in every run from a freshly constructed broker, every granted offer
is for a kind in the policy table, every kind ever recorded in the dedup
registry is in the policy table, and each of the four policy-table kinds
really can be granted: the allocatable kinds are exactly guest-host,
guest-sidebar, notebook-sidebar and sidebar-host. -/
theorem c9_only_policy_kinds :
    (∀ (o : String) (events : List InEvent) (w : Nat) (m : MessageData)
        (og : String) (pt : Port),
        Effect.postToSource w m og pt ∈ (runEvents (PortProvider.init o) events).2 →
        channelOfMsg m ∈ validChannels)
    ∧ (∀ (o : String) (events : List InEvent) (w : Nat) (cs : List String),
        (w, cs) ∈ (runEvents (PortProvider.init o) events).1.sentChannels →
        ∀ c ∈ cs, c ∈ validChannels)
    ∧ (∀ k ∈ validChannels, ∃ (events : List InEvent) (w : Nat) (m : MessageData)
        (og : String) (pt : Port),
        Effect.postToSource w m og pt ∈
            (runEvents (PortProvider.init "https://hyp.is") events).2 ∧
        channelOfMsg m = k) := by
  refine ⟨?_, ?_, ?_⟩
  · intro o events w m og pt hmem
    rcases runEvents_mem_effects events (PortProvider.init o) _ hmem with
      ⟨q, ev, hq, _, _, _⟩
    rcases handleRequest_effects_mem q ev _ hq with
      ⟨src, entry, hs, hm, hnew, ch, hch, hoff⟩
    rcases mem_offerEffects q src ev.origin entry ch _ hoff with h | ⟨_, h⟩ | ⟨_, h⟩
    · have hme : m = ⟨entry.frame1, entry.frame2, "offer"⟩ := by
        injection h with _ h' _ _
      rw [hme]
      exact matchedEntry_channelOf_valid q ev entry hm
    · exact absurd h (by simp)
    · exact absurd h (by simp)
  · intro o events w cs hmem c hc
    exact runEvents_channelsInv events (PortProvider.init o)
      (fun w cs h => by simp [PortProvider.init] at h) w cs hmem c hc
  · intro k hk
    simp [validChannels] at hk
    rcases hk with hk | hk | hk | hk <;> subst hk
    · exact ⟨[⟨some ⟨"guest", "host", "request"⟩, "https://a.example", some 1⟩],
        1, ⟨"guest", "host", "offer"⟩, "https://a.example", port1 1, by decide, rfl⟩
    · exact ⟨[⟨some ⟨"guest", "sidebar", "request"⟩, "https://a.example", some 1⟩],
        1, ⟨"guest", "sidebar", "offer"⟩, "https://a.example", port1 1, by decide, rfl⟩
    · exact ⟨[⟨some ⟨"notebook", "sidebar", "request"⟩, "https://hyp.is", some 1⟩],
        1, ⟨"notebook", "sidebar", "offer"⟩, "https://hyp.is", port1 1, by decide, rfl⟩
    · exact ⟨[⟨some ⟨"sidebar", "host", "request"⟩, "https://hyp.is", some 1⟩],
        1, ⟨"sidebar", "host", "offer"⟩, "https://hyp.is", port1 0, by decide, rfl⟩

/-- Witness for C9: in a concrete one-event run the granted offer kind is a
policy-table kind. -/
theorem c9_only_policy_kinds_witness :
    channelOfMsg ⟨"guest", "host", "offer"⟩ ∈ validChannels := by
  apply c9_only_policy_kinds.1 "https://hyp.is"
    [⟨some ⟨"guest", "host", "request"⟩, "https://a.example", some 1⟩]
    1 ⟨"guest", "host", "offer"⟩ "https://a.example" (port1 1)
  decide

/-- C10: in every run from a freshly constructed broker, the port carried
by a `frameConnected` notification with source `sidebar` (i.e. the one
raised when a sidebar-host request is granted) is port2 of the singleton
sidebar-host channel — the very same port the broker uses as the relay
transport for port2 of every granted guest-sidebar and notebook-sidebar
channel. -/
theorem c10_notification_port_is_relay_port (o : String) (events : List InEvent) :
    (∀ pt : Port,
        Effect.emitFrameConnected "sidebar" pt ∈ (runEvents (PortProvider.init o) events).2 →
        pt = port2 ((PortProvider.init o).sidebarHostChannel))
    ∧ (∀ (via : Port) (m : MessageData) (tr : Port),
        Effect.postToPort via m tr ∈ (runEvents (PortProvider.init o) events).2 →
        via = port2 ((PortProvider.init o).sidebarHostChannel)) := by
  constructor
  · intro pt hmem
    rcases runEvents_mem_effects events (PortProvider.init o) _ hmem with
      ⟨q, ev, hq, hsb, _, _⟩
    rcases handleRequest_effects_mem q ev _ hq with
      ⟨src, entry, hs, hm, hnew, ch, hch, hoff⟩
    rcases mem_offerEffects q src ev.origin entry ch _ hoff with h | ⟨_, h⟩ | ⟨hf2, h⟩
    · exact absurd h (by simp)
    · exact absurd h (by simp)
    · have hf1 : entry.frame1 = "sidebar" := by
        injection h with h' _
        exact h'.symm
      have hpt : pt = port2 ch := by
        injection h with _ h'
      have hsh : channelOf entry = "sidebar-host" := by
        rcases matchedEntry_mem q ev entry hm with he | he | he | he <;> subst he
        · simp at hf1
        · simp at hf2
        · exact channelOf_sidebar_host _
        · simp at hf2
      rcases hch with ⟨_, hcheq⟩ | ⟨hcontra, _⟩
      · rw [hpt, hcheq, hsb]
      · exact absurd hsh hcontra
  · intro via m tr hmem
    rcases runEvents_mem_effects events (PortProvider.init o) _ hmem with
      ⟨q, ev, hq, hsb, _, _⟩
    rcases handleRequest_effects_mem q ev _ hq with
      ⟨src, entry, hs, hm, hnew, ch, hch, hoff⟩
    rcases mem_offerEffects q src ev.origin entry ch _ hoff with h | ⟨_, h⟩ | ⟨_, h⟩
    · exact absurd h (by simp)
    · have : via = port2 q.sidebarHostChannel := by
        injection h with h' _ _
      rw [this, hsb]
    · exact absurd h (by simp)

/-- Witness for C10: in a concrete run that grants sidebar-host and then
guest-sidebar, the notified port equals the relay transport port. -/
theorem c10_notification_port_is_relay_port_witness :
    port2 ((PortProvider.init "https://hyp.is").sidebarHostChannel) = port2 0 ∧
    port2 ((PortProvider.init "https://hyp.is").sidebarHostChannel) = port2 0 := by
  constructor
  · exact (c10_notification_port_is_relay_port "https://hyp.is"
      [⟨some ⟨"sidebar", "host", "request"⟩, "https://hyp.is", some 2⟩,
       ⟨some ⟨"guest", "sidebar", "request"⟩, "https://a.example", some 3⟩]).1
      (port2 0) (by decide) |>.symm
  · exact (c10_notification_port_is_relay_port "https://hyp.is"
      [⟨some ⟨"sidebar", "host", "request"⟩, "https://hyp.is", some 2⟩,
       ⟨some ⟨"guest", "sidebar", "request"⟩, "https://a.example", some 3⟩]).2
      (port2 0) ⟨"guest", "sidebar", "offer"⟩ (port2 1) (by decide) |>.symm

/-! ### Distinctness of granted channel pairs -/

theorem channelOfMsg_offer (entry : PolicyEntry) :
    channelOfMsg ⟨entry.frame1, entry.frame2, "offer"⟩ = channelOf entry := rfl

theorem DistinctGrants_of_right_none (a b : Effect)
    (h1 : freshGrantId b = none) (h2 : grantKey b = none) : DistinctGrants a b := by
  constructor
  · intro i1 i2 _ hb
    rw [h1] at hb
    cases hb
  · intro w k _ hb
    rw [h2] at hb
    cases hb

theorem step_freshGrantId (p : PortProvider) (ev : InEvent) (eff : Effect) (i : Nat)
    (hmem : eff ∈ (p.handleRequest ev).2) (hid : freshGrantId eff = some i) :
    i = p.nextChannelId ∧ (p.handleRequest ev).1.nextChannelId = p.nextChannelId + 1 := by
  rcases handleRequestCore_spec p ev with hn | ⟨src, entry, hs, hm, hnew, ⟨hch, heq⟩ | ⟨hch, heq⟩⟩
  · rw [handleRequest_of_core_none p ev hn] at hmem
    simp at hmem
  · rw [handleRequest_of_core_some p ev _ heq] at hmem
    exfalso
    rcases mem_offerEffects p src ev.origin entry p.sidebarHostChannel eff hmem with
      h | ⟨_, h⟩ | ⟨_, h⟩ <;> subst h
    · simp [freshGrantId, channelOfMsg_offer, hch] at hid
    · simp [freshGrantId] at hid
    · simp [freshGrantId] at hid
  · rw [handleRequest_of_core_some p ev _ heq] at hmem ⊢
    rcases mem_offerEffects p src ev.origin entry p.nextChannelId eff hmem with
      h | ⟨_, h⟩ | ⟨_, h⟩ <;> subst h
    · simp [freshGrantId, channelOfMsg_offer, hch, port1] at hid
      exact ⟨hid.symm, rfl⟩
    · simp [freshGrantId] at hid
    · simp [freshGrantId] at hid

theorem step_grantKey (p : PortProvider) (ev : InEvent) (eff : Effect)
    (w : Nat) (k : String)
    (hmem : eff ∈ (p.handleRequest ev).2) (hk : grantKey eff = some (w, k)) :
    k ∉ p.sentFor w ∧ k ∈ (p.handleRequest ev).1.sentFor w := by
  rcases handleRequestCore_spec p ev with hn | ⟨src, entry, hs, hm, hnew, ⟨hch, heq⟩ | ⟨hch, heq⟩⟩
  · rw [handleRequest_of_core_none p ev hn] at hmem
    simp at hmem
  · rw [handleRequest_of_core_some p ev _ heq] at hmem ⊢
    rcases mem_offerEffects p src ev.origin entry p.sidebarHostChannel eff hmem with
      h | ⟨_, h⟩ | ⟨_, h⟩ <;> subst h
    · simp [grantKey, channelOfMsg_offer] at hk
      rcases hk with ⟨hw, hkk⟩
      subst hw
      subst hkk
      refine ⟨hnew, ?_⟩
      show channelOf entry ∈ (p.recordSent src (channelOf entry)).sentFor src
      rw [sentFor_recordSent_self]
      exact List.mem_cons_self _ _
    · simp [grantKey] at hk
    · simp [grantKey] at hk
  · rw [handleRequest_of_core_some p ev _ heq] at hmem ⊢
    rcases mem_offerEffects p src ev.origin entry p.nextChannelId eff hmem with
      h | ⟨_, h⟩ | ⟨_, h⟩ <;> subst h
    · simp [grantKey, channelOfMsg_offer] at hk
      rcases hk with ⟨hw, hkk⟩
      subst hw
      subst hkk
      refine ⟨hnew, ?_⟩
      show channelOf entry ∈ (p.recordSent src (channelOf entry)).sentFor src
      rw [sentFor_recordSent_self]
      exact List.mem_cons_self _ _
    · simp [grantKey] at hk
    · simp [grantKey] at hk

theorem step_pairwise (p : PortProvider) (ev : InEvent) :
    (p.handleRequest ev).2.Pairwise DistinctGrants := by
  rcases handleRequestCore_spec p ev with hn | ⟨src, entry, hs, hm, hnew, ⟨hch, heq⟩ | ⟨hch, heq⟩⟩
  · rw [handleRequest_of_core_none p ev hn]
    exact List.Pairwise.nil
  all_goals rw [handleRequest_of_core_some p ev _ heq]
  all_goals by_cases h2 : entry.frame2 = "sidebar"
  · simp only [offerEffects, if_pos h2]
    refine List.Pairwise.cons ?_ (List.Pairwise.cons (fun b hb => by cases hb) List.Pairwise.nil)
    intro b hb
    simp at hb
    subst hb
    exact DistinctGrants_of_right_none _ _ rfl rfl
  · by_cases h3 : entry.frame2 = "host"
    · simp only [offerEffects, if_neg h2, if_pos h3]
      refine List.Pairwise.cons ?_ (List.Pairwise.cons (fun b hb => by cases hb) List.Pairwise.nil)
      intro b hb
      simp at hb
      subst hb
      exact DistinctGrants_of_right_none _ _ rfl rfl
    · simp only [offerEffects, if_neg h2, if_neg h3]
      exact List.Pairwise.cons (fun b hb => by cases hb) List.Pairwise.nil
  · simp only [offerEffects, if_pos h2]
    refine List.Pairwise.cons ?_ (List.Pairwise.cons (fun b hb => by cases hb) List.Pairwise.nil)
    intro b hb
    simp at hb
    subst hb
    exact DistinctGrants_of_right_none _ _ rfl rfl
  · by_cases h3 : entry.frame2 = "host"
    · simp only [offerEffects, if_neg h2, if_pos h3]
      refine List.Pairwise.cons ?_ (List.Pairwise.cons (fun b hb => by cases hb) List.Pairwise.nil)
      intro b hb
      simp at hb
      subst hb
      exact DistinctGrants_of_right_none _ _ rfl rfl
    · simp only [offerEffects, if_neg h2, if_neg h3]
      exact List.Pairwise.cons (fun b hb => by cases hb) List.Pairwise.nil

theorem runEvents_grants_inv :
    ∀ (evs : List InEvent) (p : PortProvider),
      (runEvents p evs).2.Pairwise DistinctGrants
      ∧ (∀ eff ∈ (runEvents p evs).2, ∀ i : Nat, freshGrantId eff = some i →
          p.nextChannelId ≤ i ∧ i < (runEvents p evs).1.nextChannelId)
      ∧ (∀ eff ∈ (runEvents p evs).2, ∀ (w : Nat) (k : String), grantKey eff = some (w, k) →
          k ∉ p.sentFor w ∧ k ∈ (runEvents p evs).1.sentFor w) := by
  intro evs
  induction evs with
  | nil =>
    intro p
    refine ⟨List.Pairwise.nil, ?_, ?_⟩ <;> intro eff hmem <;> simp [runEvents_nil] at hmem
  | cons ev rest ih =>
    intro p
    rw [runEvents_cons]
    dsimp only
    refine ⟨?_, ?_, ?_⟩
    · rw [List.pairwise_append]
      refine ⟨step_pairwise p ev, (ih (p.handleRequest ev).1).1, ?_⟩
      intro a ha b hb
      constructor
      · intro i1 i2 hia hib
        rcases step_freshGrantId p ev a i1 ha hia with ⟨hi1, hnext⟩
        have hi2 := ((ih (p.handleRequest ev).1).2.1 b hb i2 hib).1
        rw [hnext] at hi2
        omega
      · intro w k hka hkb
        have hin := (step_grantKey p ev a w k ha hka).2
        have hout := ((ih (p.handleRequest ev).1).2.2 b hb w k hkb).1
        exact hout hin
    · intro eff hmem i hid
      rcases List.mem_append.mp hmem with h1 | h1
      · rcases step_freshGrantId p ev eff i h1 hid with ⟨hi, hnext⟩
        have hmono := runEvents_nextChannelId_mono rest (p.handleRequest ev).1
        rw [hnext] at hmono
        omega
      · have h := (ih (p.handleRequest ev).1).2.1 eff h1 i hid
        have hmono := handleRequest_nextChannelId_mono p ev
        omega
    · intro eff hmem w k hk
      rcases List.mem_append.mp hmem with h1 | h1
      · rcases step_grantKey p ev eff w k h1 hk with ⟨hout, hin⟩
        exact ⟨hout, runEvents_sentFor_subset rest (p.handleRequest ev).1 w hin⟩
      · rcases (ih (p.handleRequest ev).1).2.2 eff h1 w k hk with ⟨hout, hin⟩
        refine ⟨fun hc => hout (handleRequest_sentFor_subset p ev w hc), hin⟩

/-- C6 counterexample: two distinct windows (1 and 2) are each granted the
sidebar-host kind, and both receive port1 of the same channel (the
singleton, allocation id 0) — the endpoint pair is shared across senders,
so the claim as stated is false for the sidebar-host kind. -/
theorem c6_shared_singleton_counterexample :
    (1 : Nat) ≠ 2 ∧
    Effect.postToSource 1 ⟨"sidebar", "host", "offer"⟩ "https://hyp.is" (port1 0) ∈
      (runEvents (PortProvider.init "https://hyp.is")
        [⟨some ⟨"sidebar", "host", "request"⟩, "https://hyp.is", some 1⟩,
         ⟨some ⟨"sidebar", "host", "request"⟩, "https://hyp.is", some 2⟩]).2 ∧
    Effect.postToSource 2 ⟨"sidebar", "host", "offer"⟩ "https://hyp.is" (port1 0) ∈
      (runEvents (PortProvider.init "https://hyp.is")
        [⟨some ⟨"sidebar", "host", "request"⟩, "https://hyp.is", some 1⟩,
         ⟨some ⟨"sidebar", "host", "request"⟩, "https://hyp.is", some 2⟩]).2 := by
  decide

/-- C6 (amended): in every run from a freshly constructed broker, two grant
effects at different trace positions receive endpoint pairs with distinct
channel ids whenever both kinds are on-demand kinds (any kind other than
the sidebar-host singleton, whose pre-created pair is shared across senders
by design); and, for every sender, each channel kind is granted at most
once, so exactly one pair exists per granted (sender, kind) combination. -/
theorem c6_amended_distinct_pairs (o : String) (events : List InEvent)
    (i j : Nat) (hij : i ≠ j)
    (w1 w2 : Nat) (m1 m2 : MessageData) (og1 og2 : String) (pt1 pt2 : Port)
    (h1 : (runEvents (PortProvider.init o) events).2[i]? =
      some (Effect.postToSource w1 m1 og1 pt1))
    (h2 : (runEvents (PortProvider.init o) events).2[j]? =
      some (Effect.postToSource w2 m2 og2 pt2)) :
    (channelOfMsg m1 ≠ "sidebar-host" → channelOfMsg m2 ≠ "sidebar-host" →
      pt1.channel ≠ pt2.channel)
    ∧ (w1 = w2 → channelOfMsg m1 ≠ channelOfMsg m2) := by
  have hp := (runEvents_grants_inv events (PortProvider.init o)).1
  rcases List.getElem?_eq_some.mp h1 with ⟨hi, hgi⟩
  rcases List.getElem?_eq_some.mp h2 with ⟨hj, hgj⟩
  have key :
      DistinctGrants (Effect.postToSource w1 m1 og1 pt1) (Effect.postToSource w2 m2 og2 pt2)
      ∨ DistinctGrants (Effect.postToSource w2 m2 og2 pt2) (Effect.postToSource w1 m1 og1 pt1) := by
    rcases Nat.lt_or_ge i j with hlt | hge
    · left
      have hR := List.pairwise_iff_get.mp hp ⟨i, hi⟩ ⟨j, hj⟩ hlt
      have e1 : (runEvents (PortProvider.init o) events).2.get ⟨i, hi⟩ =
          Effect.postToSource w1 m1 og1 pt1 := by
        rw [List.get_eq_getElem]
        exact hgi
      have e2 : (runEvents (PortProvider.init o) events).2.get ⟨j, hj⟩ =
          Effect.postToSource w2 m2 og2 pt2 := by
        rw [List.get_eq_getElem]
        exact hgj
      rw [e1, e2] at hR
      exact hR
    · right
      have hlt : j < i := Nat.lt_of_le_of_ne hge (Ne.symm hij)
      have hR := List.pairwise_iff_get.mp hp ⟨j, hj⟩ ⟨i, hi⟩ hlt
      have e1 : (runEvents (PortProvider.init o) events).2.get ⟨i, hi⟩ =
          Effect.postToSource w1 m1 og1 pt1 := by
        rw [List.get_eq_getElem]
        exact hgi
      have e2 : (runEvents (PortProvider.init o) events).2.get ⟨j, hj⟩ =
          Effect.postToSource w2 m2 og2 pt2 := by
        rw [List.get_eq_getElem]
        exact hgj
      rw [e1, e2] at hR
      exact hR
  constructor
  · intro hm1 hm2 hcontra
    have f1 : freshGrantId (Effect.postToSource w1 m1 og1 pt1) = some pt1.channel := by
      simp [freshGrantId, hm1]
    have f2 : freshGrantId (Effect.postToSource w2 m2 og2 pt2) = some pt2.channel := by
      simp [freshGrantId, hm2]
    rcases key with ⟨ka, _⟩ | ⟨ka, _⟩
    · exact ka pt1.channel pt2.channel f1 f2 hcontra
    · exact ka pt2.channel pt1.channel f2 f1 hcontra.symm
  · intro hw hkk
    have g1 : grantKey (Effect.postToSource w1 m1 og1 pt1) = some (w1, channelOfMsg m1) := rfl
    have g2 : grantKey (Effect.postToSource w2 m2 og2 pt2) = some (w1, channelOfMsg m1) := by
      show grantKey _ = _
      rw [hw, hkk]
      rfl
    rcases key with ⟨_, kb⟩ | ⟨_, kb⟩
    · exact kb w1 (channelOfMsg m1) g1 g2
    · exact kb w1 (channelOfMsg m1) g2 g1

/-- Witness for the amended C6: two windows granted guest-sidebar in one
run receive pairs with distinct channel ids (1 and 2). -/
theorem c6_amended_distinct_pairs_witness :
    (port1 1).channel ≠ (port1 2).channel := by
  have h := c6_amended_distinct_pairs "https://hyp.is"
    [⟨some ⟨"guest", "sidebar", "request"⟩, "https://a.example", some 10⟩,
     ⟨some ⟨"guest", "sidebar", "request"⟩, "https://a.example", some 20⟩]
    0 2 (by decide) 10 20 ⟨"guest", "sidebar", "offer"⟩ ⟨"guest", "sidebar", "offer"⟩
    "https://a.example" "https://a.example" (port1 1) (port1 2) (by decide) (by decide)
  exact h.1 (by decide) (by decide)

/-! ### Error isolation around the handler -/

/-- C8: every exception raised while executing a request's sends is caught
by the wrapper and reported to the error sink together with the fixed
description of the failed operation, and never propagates; the dedup record
made before the sends is not rolled back, so a sender whose grant failed
mid-flight is ignored on any re-request of the same kind; and the listening
loop keeps processing later events unchanged after a failure. -/
theorem c8_error_isolation :
    (∀ (failsAt : Effect → Option String) (p : PortProvider) (ev : InEvent) (msg : String),
        (p.handleRequestE failsAt ev).2.2 = some msg →
        captureErrorsStep failsAt p ev =
          ((p.handleRequestE failsAt ev).1, (p.handleRequestE failsAt ev).2.1,
            [⟨msg, "Handling port request"⟩]))
    ∧ (∀ (failsAt : Effect → Option String) (p : PortProvider) (ev : InEvent)
        (rep : SinkReport), rep ∈ (captureErrorsStep failsAt p ev).2.2 →
        rep.description = "Handling port request")
    ∧ (∀ (failsAt : Effect → Option String) (p : PortProvider) (ev : InEvent),
        (captureErrorsStep failsAt p ev).2.2 ≠ [] →
        ∀ failsAt2 : Effect → Option String,
          captureErrorsStep failsAt2 (captureErrorsStep failsAt p ev).1 ev =
            ((captureErrorsStep failsAt p ev).1, [], []))
    ∧ (∀ (failsAt : Effect → Option String) (p : PortProvider) (ev : InEvent)
        (evs : List InEvent),
        runEventsF failsAt p (ev :: evs) =
          ((runEventsF failsAt (captureErrorsStep failsAt p ev).1 evs).1,
            (captureErrorsStep failsAt p ev).2.1 ++
              (runEventsF failsAt (captureErrorsStep failsAt p ev).1 evs).2.1,
            (captureErrorsStep failsAt p ev).2.2 ++
              (runEventsF failsAt (captureErrorsStep failsAt p ev).1 evs).2.2)) := by
  refine ⟨?_, ?_, ?_, ?_⟩
  · intro failsAt p ev msg h
    rw [captureErrorsStep_eq, h]
  · intro failsAt p ev rep h
    rw [captureErrorsStep_eq] at h
    rcases he : (p.handleRequestE failsAt ev).2.2 with _ | msg
    · rw [he] at h
      simp at h
    · rw [he] at h
      simp at h
      rw [h]
  · intro failsAt p ev hne failsAt2
    rcases handleRequestCore_spec p ev with hn | ⟨src, entry, hs, hm, hnew, hgr⟩
    · exfalso
      apply hne
      rw [captureErrorsStep_eq, handleRequestE_of_core_none failsAt p ev hn]
    · have hstate1 : (captureErrorsStep failsAt p ev).1 = (p.handleRequestE failsAt ev).1 := by
        rw [captureErrorsStep_eq]
      rcases hgr with ⟨hch, heq⟩ | ⟨hch, heq⟩
      · have hE := handleRequestE_of_core_some failsAt p ev _ heq
        have hP1 : (captureErrorsStep failsAt p ev).1 = p.recordSent src (channelOf entry) := by
          rw [hstate1, hE]
        rw [hP1]
        have hm' : (p.recordSent src (channelOf entry)).matchedEntry ev = some entry :=
          (matchedEntry_congr p _ rfl ev).trans hm
        have hdup : channelOf entry ∈ (p.recordSent src (channelOf entry)).sentFor src := by
          rw [sentFor_recordSent_self]
          exact List.mem_cons_self _ _
        have hcore : (p.recordSent src (channelOf entry)).handleRequestCore ev = none :=
          handleRequestCore_none_of_dup _ ev src entry hs hm' hdup
        rw [captureErrorsStep_eq, handleRequestE_of_core_none failsAt2 _ ev hcore]
      · have hE := handleRequestE_of_core_some failsAt p ev _ heq
        have hP1 : (captureErrorsStep failsAt p ev).1 =
            { p.recordSent src (channelOf entry) with nextChannelId := p.nextChannelId + 1 } := by
          rw [hstate1, hE]
        rw [hP1]
        have hm' : ({ p.recordSent src (channelOf entry) with
            nextChannelId := p.nextChannelId + 1 }).matchedEntry ev = some entry :=
          (matchedEntry_congr p _ rfl ev).trans hm
        have hdup : channelOf entry ∈ ({ p.recordSent src (channelOf entry) with
            nextChannelId := p.nextChannelId + 1 }).sentFor src := by
          show channelOf entry ∈ (p.recordSent src (channelOf entry)).sentFor src
          rw [sentFor_recordSent_self]
          exact List.mem_cons_self _ _
        have hcore : ({ p.recordSent src (channelOf entry) with
            nextChannelId := p.nextChannelId + 1 }).handleRequestCore ev = none :=
          handleRequestCore_none_of_dup _ ev src entry hs hm' hdup
        rw [captureErrorsStep_eq, handleRequestE_of_core_none failsAt2 _ ev hcore]
  · intro failsAt p ev evs
    rfl

/-- Witness for C8: a guest-host grant whose first send throws is reported,
and the same request from the same window is then silently ignored even
when sends no longer fail. -/
theorem c8_error_isolation_witness :
    captureErrorsStep (fun _ => none)
        ((captureErrorsStep (fun _ => some "DataCloneError")
          (PortProvider.init "https://hyp.is")
          ⟨some ⟨"guest", "host", "request"⟩, "https://page.example", some 7⟩).1)
        ⟨some ⟨"guest", "host", "request"⟩, "https://page.example", some 7⟩ =
      ((captureErrorsStep (fun _ => some "DataCloneError")
          (PortProvider.init "https://hyp.is")
          ⟨some ⟨"guest", "host", "request"⟩, "https://page.example", some 7⟩).1, [], []) := by
  exact c8_error_isolation.2.2.1 (fun _ => some "DataCloneError")
    (PortProvider.init "https://hyp.is")
    ⟨some ⟨"guest", "host", "request"⟩, "https://page.example", some 7⟩
    (by decide) (fun _ => none)

/-! ### The dedup registry container -/

/-- C7 (code bug): the dedup registry is documented — in the field's own
type annotation — as a weakly keyed `WeakMap`, but the constructor
allocates a strongly keyed `Map`, so an entry does keep its sender window
reachable and is never reclaimed without explicit cleanup. -/
theorem c7_registry_not_weak :
    sentChannelsMapKind ≠ sentChannelsDeclaredMapKind ∧
    sentChannelsDeclaredMapKind = MapKind.weakMap := by
  decide
